import Mathlib

/-!
Verification of `dipy/workflows/vis_registeration.py` (class
`VisualizeRegisteredImage`) against its natural-language specification.

The Python module is shallowly embedded below.  Conventions:

* numpy float values are modelled by `ℚ`; a non-finite float (NaN or ±inf,
  as produced by a zero denominator) is modelled by `none` in `Option ℚ`;
* a store of a float into a `uint8` array slot is a C cast, i.e. truncation
  toward zero, modelled by `Int.floor` followed by `% 256` (all stored
  values in this module are nonnegative);
* numpy `.min()` / `.max()` over a nonempty array are `npmin` / `npmax`
  over the flattened element list;
* Python exceptions are modelled with `Except`.
-/

/-- numpy `.min()` over the flattened element list of an array.  numpy
raises on an empty array; the `[]` case below is never exercised by the
theorems, which require nonempty input. -/
def npmin {α : Type} [LinearOrder α] [Zero α] : List α → α
  | [] => 0
  | a :: l => l.foldl min a

/-- numpy `.max()` over the flattened element list of an array. -/
def npmax {α : Type} [LinearOrder α] [Zero α] : List α → α
  | [] => 0
  | a :: l => l.foldl max a

theorem foldl_min_le_init {α : Type} [LinearOrder α] (l : List α) (a : α) :
    l.foldl min a ≤ a := by
  induction l generalizing a with
  | nil => exact le_refl a
  | cons x t ih => exact le_trans (ih (min a x)) (min_le_left a x)

theorem foldl_min_le_mem {α : Type} [LinearOrder α] {l : List α} {b : α}
    (h : b ∈ l) (a : α) : l.foldl min a ≤ b := by
  induction l generalizing a with
  | nil => cases h
  | cons x t ih =>
    rcases List.mem_cons.mp h with rfl | h2
    · exact le_trans (foldl_min_le_init t (min a b)) (min_le_right a b)
    · exact ih h2 (min a x)

theorem foldl_min_choice {α : Type} [LinearOrder α] (l : List α) (a : α) :
    l.foldl min a = a ∨ l.foldl min a ∈ l := by
  induction l generalizing a with
  | nil => exact Or.inl rfl
  | cons x t ih =>
    rcases ih (min a x) with h | h
    · rcases min_choice a x with h2 | h2
      · exact Or.inl (by rw [List.foldl_cons, h, h2])
      · exact Or.inr (by rw [List.foldl_cons, h, h2]; exact List.mem_cons_self x t)
    · exact Or.inr (List.mem_cons_of_mem x h)

theorem init_le_foldl_max {α : Type} [LinearOrder α] (l : List α) (a : α) :
    a ≤ l.foldl max a := by
  induction l generalizing a with
  | nil => exact le_refl a
  | cons x t ih => exact le_trans (le_max_left a x) (ih (max a x))

theorem mem_le_foldl_max {α : Type} [LinearOrder α] {l : List α} {b : α}
    (h : b ∈ l) (a : α) : b ≤ l.foldl max a := by
  induction l generalizing a with
  | nil => cases h
  | cons x t ih =>
    rcases List.mem_cons.mp h with rfl | h2
    · exact le_trans (le_max_right a b) (init_le_foldl_max t (max a b))
    · exact ih h2 (max a x)

theorem foldl_max_le {α : Type} [LinearOrder α] {l : List α} {c : α} (a : α)
    (h1 : a ≤ c) (h2 : ∀ b ∈ l, b ≤ c) : l.foldl max a ≤ c := by
  induction l generalizing a with
  | nil => exact h1
  | cons x t ih =>
    exact ih (max a x) (max_le h1 (h2 x (List.mem_cons_self x t)))
      (fun b hb => h2 b (List.mem_cons_of_mem x hb))

theorem foldl_max_choice {α : Type} [LinearOrder α] (l : List α) (a : α) :
    l.foldl max a = a ∨ l.foldl max a ∈ l := by
  induction l generalizing a with
  | nil => exact Or.inl rfl
  | cons x t ih =>
    rcases ih (max a x) with h | h
    · rcases max_choice a x with h2 | h2
      · exact Or.inl (by rw [List.foldl_cons, h, h2])
      · exact Or.inr (by rw [List.foldl_cons, h, h2]; exact List.mem_cons_self x t)
    · exact Or.inr (List.mem_cons_of_mem x h)

theorem npmin_le {α : Type} [LinearOrder α] [Zero α] {l : List α} {b : α}
    (h : b ∈ l) : npmin l ≤ b := by
  cases l with
  | nil => cases h
  | cons a t =>
    rcases List.mem_cons.mp h with rfl | h2
    · exact foldl_min_le_init t b
    · exact foldl_min_le_mem h2 a

theorem le_npmax {α : Type} [LinearOrder α] [Zero α] {l : List α} {b : α}
    (h : b ∈ l) : b ≤ npmax l := by
  cases l with
  | nil => cases h
  | cons a t =>
    rcases List.mem_cons.mp h with rfl | h2
    · exact init_le_foldl_max t b
    · exact mem_le_foldl_max h2 a

theorem npmin_mem {α : Type} [LinearOrder α] [Zero α] {l : List α}
    (h : l ≠ []) : npmin l ∈ l := by
  cases l with
  | nil => exact absurd rfl h
  | cons a t =>
    rcases foldl_min_choice t a with h2 | h2
    · rw [npmin, h2]; exact List.mem_cons_self a t
    · exact List.mem_cons_of_mem a h2

theorem npmax_mem {α : Type} [LinearOrder α] [Zero α] {l : List α}
    (h : l ≠ []) : npmax l ∈ l := by
  cases l with
  | nil => exact absurd rfl h
  | cons a t =>
    rcases foldl_max_choice t a with h2 | h2
    · rw [npmax, h2]; exact List.mem_cons_self a t
    · exact List.mem_cons_of_mem a h2

theorem npmin_nat_eq_zero {l : List ℕ} (h : 0 ∈ l) : npmin l = 0 :=
  Nat.le_zero.mp (npmin_le h)

theorem npmax_nat_eq {l : List ℕ} {M : ℕ} (hM : M ∈ l)
    (hall : ∀ b ∈ l, b ≤ M) : npmax l = M := by
  refine le_antisymm ?_ (le_npmax hM)
  cases l with
  | nil => cases hM
  | cons a t =>
    exact foldl_max_le a (hall a (List.mem_cons_self a t))
      (fun b hb => hall b (List.mem_cons_of_mem a hb))

/-!
## Mosaic Row/Column Solver (source lines 48–73, `get_row_cols`)

```
rows, cols = 0, 0
while True:
    if num_slices % 5 == 0:
        break
    num_slices += 1
for i in range(5, num_slices):
    if num_slices % i == 0:
        rows = i
        cols = num_slices // i
        break
return rows, cols
```
-/

/-- The `while True` padding loop of `get_row_cols`: increment until the
count is a multiple of 5. -/
def padTo5 (n : ℕ) : ℕ :=
  if n % 5 = 0 then n else padTo5 (n + 1)
termination_by (5 - n % 5) % 5
decreasing_by omega

theorem padTo5_closed (n : ℕ) : padTo5 n = n + (5 - n % 5) % 5 := by
  generalize hm : (5 - n % 5) % 5 = m
  induction m generalizing n with
  | zero =>
    have h0 : n % 5 = 0 := by omega
    rw [padTo5.eq_def, if_pos h0]
    omega
  | succ k ih =>
    have hne : ¬ n % 5 = 0 := by omega
    have hstep : (5 - (n + 1) % 5) % 5 = k := by omega
    rw [padTo5.eq_def, if_neg hne, ih (n + 1) hstep]
    omega

/-- Source lines 48–73: the divisor search runs over `range(5, num_slices)`,
which excludes the padded count itself; `rows` and `cols` stay 0 when no
proper divisor in that range is found. -/
def get_row_cols (num_slices : ℕ) : ℕ × ℕ :=
  let padded := padTo5 num_slices
  match (List.range' 5 (padded - 5)).find? (fun i => padded % i == 0) with
  | some i => (i, padded / i)
  | none => (0, 0)

/-- C1 counterexample: at `num_slices = 5` the padded count is 5 itself,
`range(5, 5)` is empty, and `get_row_cols` returns `(0, 0)` — so
`rows * cols ≥ n` and `rows ≥ 5` both fail, contradicting the claim that
the divisor search includes the padded count and never leaves rows/cols
at 0. -/
theorem get_row_cols_counterexample_n5 :
    get_row_cols 5 = (0, 0) ∧
    ¬ (5 ≤ (get_row_cols 5).1 * (get_row_cols 5).2 ∧ 5 ≤ (get_row_cols 5).1) := by
  have h5 : padTo5 5 = 5 := by rw [padTo5_closed]
  constructor
  · rw [get_row_cols, h5]
    decide
  · rw [get_row_cols, h5]
    decide

/-- C1 (amended): for every slice count `n ≥ 6`, `get_row_cols` returns
`(rows, cols)` with `rows = 5`, `rows * cols ≥ n`, `rows * cols` a multiple
of 5 (equal to `n` whenever `n` is already a multiple of 5), and
`rows ≥ 5`.  (For `1 ≤ n ≤ 5` the padded count is 5 and the divisor range
`range(5, 5)` is empty — the range excludes the padded count — so both
rows and cols remain 0.) -/
theorem get_row_cols_amended (n : ℕ) (h : 6 ≤ n) :
    (get_row_cols n).1 = 5 ∧
    n ≤ (get_row_cols n).1 * (get_row_cols n).2 ∧
    ((get_row_cols n).1 * (get_row_cols n).2) % 5 = 0 ∧
    (n % 5 = 0 → (get_row_cols n).1 * (get_row_cols n).2 = n) := by
  have hp := padTo5_closed n
  have hp5 : padTo5 n % 5 = 0 := by omega
  have hpn : n ≤ padTo5 n := by omega
  have hp10 : 10 ≤ padTo5 n := by omega
  have hrange : List.range' 5 (padTo5 n - 5) = 5 :: List.range' 6 (padTo5 n - 6) := by
    have h6 : padTo5 n - 5 = (padTo5 n - 6) + 1 := by omega
    rw [h6, List.range'_succ]
  have hfind : (List.range' 5 (padTo5 n - 5)).find? (fun i => padTo5 n % i == 0)
      = some 5 := by
    rw [hrange]
    exact List.find?_cons_of_pos _ (by simpa using hp5)
  have hout : get_row_cols n = (5, padTo5 n / 5) := by
    rw [get_row_cols, hfind]
  rw [hout]
  have hdvd : 5 ∣ padTo5 n := Nat.dvd_of_mod_eq_zero hp5
  have hmul : 5 * (padTo5 n / 5) = padTo5 n := Nat.mul_div_cancel' hdvd
  refine ⟨rfl, by omega, by omega, fun h5 => by omega⟩

/-- Witness for the amended C1 theorem at `n = 6`. -/
theorem get_row_cols_amended_witness :
    (6 ≤ 6) ∧
    ((get_row_cols 6).1 = 5 ∧
     6 ≤ (get_row_cols 6).1 * (get_row_cols 6).2 ∧
     ((get_row_cols 6).1 * (get_row_cols 6).2) % 5 = 0 ∧
     (6 % 5 = 0 → (get_row_cols 6).1 * (get_row_cols 6).2 = 6)) :=
  ⟨by decide, get_row_cols_amended 6 (by decide)⟩

/-!
## Orchestrator dimension check (source lines 255–263, `check_dimensions`)

```
if len(static.shape) != len(moving.shape):
    raise ValueError('Dimension mismatch: The'
                     ' input images must have same number of '
                     'dimensions.')
```

The check reads only the two shape tuples, embedded here as lists of
axis lengths.  `run` (lines 303–318) calls it before any processing.
-/

def check_dimensions (static moving : List ℕ) : Except String Unit :=
  if static.length ≠ moving.length then
    Except.error ("Dimension mismatch: The input images must have same number of dimensions.")
  else Except.ok ()

/-- C2 counterexample: static shape (10,10,10) and moving shape (10,10,5)
have the same number of dimensions, so `check_dimensions` raises nothing
and returns normally — the claimed descriptive dimension-mismatch error is
not raised and processing proceeds. -/
theorem check_dimensions_shape_mismatch_passes :
    check_dimensions [10, 10, 10] [10, 10, 5] = Except.ok () := rfl

/-- C2 (amended): `check_dimensions` raises the descriptive
dimension-mismatch error exactly when the two shapes differ in their
number of dimensions (rank); same-rank shapes — even with different axis
lengths, such as (10,10,10) vs (10,10,5) — pass the check silently, and
processing proceeds. -/
theorem check_dimensions_rank_only (static moving : List ℕ) :
    (static.length ≠ moving.length →
      check_dimensions static moving =
        Except.error ("Dimension mismatch: The input images must have same number of dimensions.")) ∧
    (static.length = moving.length →
      check_dimensions static moving = Except.ok ()) := by
  constructor
  · intro h
    rw [check_dimensions, if_pos h]
  · intro h
    rw [check_dimensions, if_neg (by omega)]

/-- Witness for the amended C2 theorem: a rank mismatch raises the error,
and equal ranks (with unequal axis lengths) pass. -/
theorem check_dimensions_rank_only_witness :
    check_dimensions [10, 10, 10] [10, 10] =
      Except.error ("Dimension mismatch: The input images must have same number of dimensions.") ∧
    check_dimensions [4, 4, 6] [9, 9, 9] = Except.ok () :=
  ⟨(check_dimensions_rank_only [10, 10, 10] [10, 10]).1 (by decide),
   (check_dimensions_rank_only [4, 4, 6] [9, 9, 9]).2 (by decide)⟩

/-!
## Mosaic Composer grid loop (source lines 75–122, `create_mosaic`)

```
cnt = 0
_, _, num_slices = slice_actor.shape[:3]
rows, cols = self.get_row_cols(num_slices)
border = 5
for j in range(rows):
    for i in range(cols):
        slice_mosaic = slice_actor.copy()
        slice_mosaic.display(None, None, cnt)
        slice_mosaic.SetPosition((X + border) * i,
                                 0.5 * cols * (Y + border) -
                                 (Y + border) * j, 0)
        slice_mosaic.SetInterpolate(False)
        renderer.add(slice_mosaic)
        ...
        cnt += 1
        if cnt > num_slices:
            break
    if cnt > num_slices:
        break
window.record(renderer, out_path=fname, ...)
```

The names `X` and `Y` in the `SetPosition` call are resolved at run time
against the function's local scope and the module's global scope; the loop
is embedded as a step function that records the `display` calls, the
actors added to the renderer, and whether `window.record` was reached, and
that aborts with a `NameError` when a name is not in scope.
-/

inductive PyErr where
  | nameError : String → PyErr
deriving DecidableEq

/-- Per-cell trace of the mosaic loop: the slice indices passed to
`slice_mosaic.display`, the number of actors added to the renderer, and
whether `window.record` (line 121) was reached. -/
structure MTrace where
  displayed : List ℕ
  added : ℕ
  fileWritten : Bool
deriving DecidableEq

/-- Names in scope at line 105 of the source: the module's top-level
bindings (imports and the class) plus the locals of `create_mosaic`
assigned before the `SetPosition` call.  Neither `X` nor `Y` occurs. -/
def visRegNames : List String :=
  ["Workflow", "logging", "np", "nib", "write_gif", "load_affine_matrix",
   "overlay_slices", "window", "actor", "snapshot", "VisualizeRegisteredImage",
   "self", "static_img", "moved_img", "affine", "fname", "overlay",
   "value_range", "renderer", "slice_actor", "cnt", "num_slices", "rows",
   "cols", "border", "j", "i", "slice_mosaic"]

/-- The same scope with `X` and `Y` bound: the grid loop as the spec reads
it, i.e. with the position expression evaluable. -/
def visRegNamesXY : List String := visRegNames ++ ["X", "Y"]

/-- One iteration of the inner grid loop (lines 103–114): `display` is
called first (line 104), then `SetPosition`'s arguments are evaluated —
looking up `X`, then `Y` — then the actor is added and the counter
incremented; the returned flag is the `cnt > num_slices` break test. -/
def mosaicCell (env : List String) (num_slices cnt : ℕ) (t : MTrace) :
    Except (PyErr × MTrace) (MTrace × ℕ × Bool) :=
  let t1 : MTrace := { t with displayed := t.displayed ++ [cnt] }
  if env.contains ("X") then
    if env.contains ("Y") then
      let t2 : MTrace := { t1 with added := t1.added + 1 }
      Except.ok (t2, cnt + 1, decide (num_slices < cnt + 1))
    else Except.error (PyErr.nameError "Y", t1)
  else Except.error (PyErr.nameError "X", t1)

/-- The inner `for i in range(cols)` loop, with its `break`. -/
def mosaicRowRun (env : List String) (n : ℕ) :
    ℕ → ℕ → MTrace → Except (PyErr × MTrace) (MTrace × ℕ × Bool)
  | 0, cnt, t => Except.ok (t, cnt, false)
  | c + 1, cnt, t =>
    match mosaicCell env n cnt t with
    | Except.error e => Except.error e
    | Except.ok (t1, cnt1, brk) =>
      if brk then Except.ok (t1, cnt1, true) else mosaicRowRun env n c cnt1 t1

/-- The outer `for j in range(rows)` loop, with its `break` on
`cnt > num_slices`. -/
def mosaicGridRun (env : List String) (n cols : ℕ) :
    ℕ → ℕ → MTrace → Except (PyErr × MTrace) MTrace
  | 0, _, t => Except.ok t
  | r + 1, cnt, t =>
    match mosaicRowRun env n cols cnt t with
    | Except.error e => Except.error e
    | Except.ok (t1, cnt1, _) =>
      if n < cnt1 then Except.ok t1 else mosaicGridRun env n cols r cnt1 t1

/-- `create_mosaic`'s grid phase followed by `window.record` (line 121),
which is reached only when the loops finish without an exception. -/
def create_mosaic_run (env : List String) (rows cols num_slices : ℕ) :
    Except (PyErr × MTrace) MTrace :=
  match mosaicGridRun env num_slices cols rows 0 ⟨[], 0, false⟩ with
  | Except.error e => Except.error e
  | Except.ok t => Except.ok { t with fileWritten := true }

/-- The display calls actually performed, whether or not the loop aborted. -/
def displayedOf : Except (PyErr × MTrace) MTrace → List ℕ
  | Except.error (_, t) => t.displayed
  | Except.ok t => t.displayed

/-- C4: whenever `get_row_cols` returns positive rows and cols, the first
grid cell calls `display` with index 0 and then evaluates the position
expression `(X + border) * i`; `X` is not bound in the module, so
`create_mosaic` raises `NameError` for `X` before any actor is placed in
the renderer and before any output file is written. -/
theorem create_mosaic_raises_name_error (n : ℕ)
    (h1 : 0 < (get_row_cols n).1) (h2 : 0 < (get_row_cols n).2) :
    create_mosaic_run visRegNames (get_row_cols n).1 (get_row_cols n).2 n =
      Except.error (PyErr.nameError "X", ⟨[0], 0, false⟩) := by
  obtain ⟨r, hr⟩ : ∃ r, (get_row_cols n).1 = r + 1 := ⟨(get_row_cols n).1 - 1, by omega⟩
  obtain ⟨c, hc⟩ : ∃ c, (get_row_cols n).2 = c + 1 := ⟨(get_row_cols n).2 - 1, by omega⟩
  have hX : ¬ (("X") ∈ visRegNames) := by decide
  rw [hr, hc]
  simp [create_mosaic_run, mosaicGridRun, mosaicRowRun, mosaicCell, hX]

/-- Witness for C4 at `n = 6`, where `get_row_cols 6 = (5, 2)`. -/
theorem create_mosaic_raises_name_error_witness :
    (0 < (get_row_cols 6).1 ∧ 0 < (get_row_cols 6).2) ∧
    create_mosaic_run visRegNames (get_row_cols 6).1 (get_row_cols 6).2 6 =
      Except.error (PyErr.nameError "X", ⟨[0], 0, false⟩) := by
  have hp : padTo5 6 = 10 := by rw [padTo5_closed]
  have h6 : get_row_cols 6 = (5, 2) := by rw [get_row_cols, hp]; decide
  refine ⟨⟨by rw [h6]; decide, by rw [h6]; decide⟩, ?_⟩
  exact create_mosaic_raises_name_error 6 (by rw [h6]; decide) (by rw [h6]; decide)

theorem mosaicRowRun_ok {env : List String} (hX : ("X") ∈ env) (hY : ("Y") ∈ env)
    (n : ℕ) : ∀ (c cnt : ℕ) (d : List ℕ) (a : ℕ) (w : Bool), cnt ≤ n →
    mosaicRowRun env n c cnt ⟨d, a, w⟩ =
      Except.ok (⟨d ++ List.range' cnt (min c (n + 1 - cnt)),
                  a + min c (n + 1 - cnt), w⟩,
                 cnt + min c (n + 1 - cnt),
                 decide (n < cnt + min c (n + 1 - cnt))) := by
  intro c
  induction c with
  | zero =>
    intro cnt d a w hcnt
    simp [mosaicRowRun]
    omega
  | succ c ih =>
    intro cnt d a w hcnt
    rw [mosaicRowRun]
    rw [show mosaicCell env n cnt ⟨d, a, w⟩ =
      Except.ok (⟨d ++ [cnt], a + 1, w⟩, cnt + 1, decide (n < cnt + 1)) by
        simp [mosaicCell, hX, hY]]
    by_cases hbrk : n < cnt + 1
    · have hm : min (c + 1) (n + 1 - cnt) = 1 := by omega
      have hd : decide (n < cnt + 1) = true := decide_eq_true hbrk
      rw [hm, hd]
      simp [List.range'_succ]
    · have hd : decide (n < cnt + 1) = false := decide_eq_false hbrk
      simp only [hd]
      rw [if_neg Bool.false_ne_true]
      rw [ih (cnt + 1) (d ++ [cnt]) (a + 1) w (by omega)]
      have hm : min (c + 1) (n + 1 - cnt) = min c (n + 1 - (cnt + 1)) + 1 := by omega
      rw [hm, List.range'_succ]
      simp only [Except.ok.injEq, Prod.mk.injEq, MTrace.mk.injEq,
        List.append_assoc, List.singleton_append, decide_eq_decide, true_and,
        and_true]
      repeat' constructor
      all_goals first | rfl | omega

theorem mosaicGridRun_ok {env : List String} (hX : ("X") ∈ env) (hY : ("Y") ∈ env)
    (n cols : ℕ) : ∀ (r cnt : ℕ) (d : List ℕ) (a : ℕ) (w : Bool), cnt ≤ n →
    mosaicGridRun env n cols r cnt ⟨d, a, w⟩ =
      Except.ok ⟨d ++ List.range' cnt (min (r * cols) (n + 1 - cnt)),
                 a + min (r * cols) (n + 1 - cnt), w⟩ := by
  intro r
  induction r with
  | zero =>
    intro cnt d a w hcnt
    simp [mosaicGridRun]
  | succ r ih =>
    intro cnt d a w hcnt
    rw [mosaicGridRun]
    simp only [mosaicRowRun_ok hX hY n cols cnt d a w hcnt]
    by_cases hstop : n < cnt + min cols (n + 1 - cnt)
    · rw [if_pos hstop]
      have hk : min cols (n + 1 - cnt) = min ((r + 1) * cols) (n + 1 - cnt) := by
        have hrc : (r + 1) * cols = r * cols + cols := by ring
        omega
      rw [← hk]
    · have hcols : min cols (n + 1 - cnt) = cols := by omega
      rw [if_neg hstop, hcols] at *
      rw [ih (cnt + cols) (d ++ List.range' cnt cols) (a + cols) w (by omega)]
      have hsplit : min ((r + 1) * cols) (n + 1 - cnt)
          = cols + min (r * cols) (n + 1 - (cnt + cols)) := by
        have hrc : (r + 1) * cols = r * cols + cols := by ring
        omega
      rw [hsplit, List.append_assoc, List.range'_append_1]
      simp [Nat.add_assoc]
      omega

/-- C8 counterexample: with `num_slices = 6` and the solver's grid
`rows = 5`, `cols = 2` (10 cells, more than 7), the claim predicts that
slice index 6 (= num_slices) is passed to `display`; in the module as
written the undefined name `X` aborts the loop in its first iteration, so
`display` is reached only for index 0 and index 6 is never displayed. -/
theorem mosaic_loop_counterexample :
    displayedOf (create_mosaic_run visRegNames 5 2 6) = [0] ∧
    ¬ (6 ∈ displayedOf (create_mosaic_run visRegNames 5 2 6)) := by
  decide

/-- C8 (amended): the grid loop's break test `cnt > num_slices` is indeed
an inclusive boundary, but it only governs the loop as designed: with the
position names `X` and `Y` bound, row-major iteration passes exactly the
indices `0 .. num_slices` to `display` whenever the grid has more than
`num_slices` cells.  In the module as written the unbound `X` raises
`NameError` in the first cell, so only index 0 is ever displayed (see the
counterexample). -/
theorem mosaic_loop_inclusive_amended (rows cols n : ℕ) (h : n < rows * cols) :
    displayedOf (create_mosaic_run visRegNamesXY rows cols n) = List.range (n + 1) ∧
    n ∈ displayedOf (create_mosaic_run visRegNamesXY rows cols n) := by
  have hX : ("X") ∈ visRegNamesXY := by decide
  have hY : ("Y") ∈ visRegNamesXY := by decide
  have hgrid := mosaicGridRun_ok hX hY n cols rows 0 [] 0 false (by omega)
  have hm : min (rows * cols) (n + 1 - 0) = n + 1 := by omega
  rw [hm] at hgrid
  have hdisp : displayedOf (create_mosaic_run visRegNamesXY rows cols n)
      = List.range (n + 1) := by
    rw [create_mosaic_run, hgrid]
    simp [displayedOf, List.range_eq_range']
  exact ⟨hdisp, by rw [hdisp]; exact List.mem_range.mpr (by omega)⟩

/-- Witness for the amended C8 theorem at `rows = 5`, `cols = 2`,
`num_slices = 6`. -/
theorem mosaic_loop_inclusive_amended_witness :
    (6 < 5 * 2) ∧
    (displayedOf (create_mosaic_run visRegNamesXY 5 2 6) = List.range (6 + 1) ∧
     6 ∈ displayedOf (create_mosaic_run visRegNamesXY 5 2 6)) :=
  ⟨by decide, mosaic_loop_inclusive_amended 5 2 6 (by decide)⟩

/-!
## Image Normalizer (source lines 16–46, `process_image_data`)

```
static_img = 255 * ((static_img - static_img.min()) /
                    (static_img.max() - static_img.min()))
moved_img = 255 * ((moved_img - moved_img.min()) /
                   (moved_img.max() - moved_img.min()))
overlay = np.zeros(shape=(static_img.shape) + (3,), dtype=np.uint8)
overlay[..., 0] = static_img
overlay[..., 1] = moved_img
mean, std = overlay[overlay > 0].mean(), overlay[overlay > 0].std()
if type_vis == 'mosaic':
    value_range = (mean - 0.5 * std, mean + 1.5 * std)
elif type_vis == 'anim':
    value_range = (mean - 0.5 * std, mean + 1.5 * std)
return overlay, value_range
```

A volume is a 3-D array over `ℚ`, indexed by `Fin x × Fin y × Fin z`; the
two input volumes share the shape, as the channel assignments into
`overlay` require.  There is no guard and no raise in this function: a
constant volume makes the denominator `max - min` zero, and numpy then
emits non-finite values (modelled by `none`) instead of raising.
-/

/-- numpy float division: a zero denominator yields a non-finite value
(NaN or ±inf), modelled by `none`. -/
def npDiv (a b : ℚ) : Option ℚ := if b = 0 then none else some (a / b)

/-- A float stored into a `uint8` slot is cast with truncation toward
zero; every value stored in this module is in `[0, 255]` when it is
finite, so the `% 256` wraparound is inert. -/
def u8OfFloat (q : ℚ) : ℕ := (Int.floor q).toNat % 256

/-- The flattened element list of a 3-D volume (C order). -/
def volElems (x y z : ℕ) (f : Fin x → Fin y → Fin z → ℚ) : List ℚ :=
  (List.finRange x).flatMap fun i =>
    (List.finRange y).flatMap fun j =>
      (List.finRange z).map fun k => f i j k

theorem mem_volElems {x y z : ℕ} (f : Fin x → Fin y → Fin z → ℚ)
    (i : Fin x) (j : Fin y) (k : Fin z) : f i j k ∈ volElems x y z f := by
  unfold volElems
  exact List.mem_flatMap.mpr ⟨i, List.mem_finRange i,
    List.mem_flatMap.mpr ⟨j, List.mem_finRange j,
      List.mem_map.mpr ⟨k, List.mem_finRange k, rfl⟩⟩⟩

theorem exists_of_mem_volElems {x y z : ℕ} {f : Fin x → Fin y → Fin z → ℚ}
    {q : ℚ} (h : q ∈ volElems x y z f) : ∃ i j k, f i j k = q := by
  unfold volElems at h
  obtain ⟨i, _, h2⟩ := List.mem_flatMap.mp h
  obtain ⟨j, _, h3⟩ := List.mem_flatMap.mp h2
  obtain ⟨k, _, h4⟩ := List.mem_map.mp h3
  exact ⟨i, j, k, h4⟩

/-- Lines 31–34: one volume is rescaled by
`255 * ((v - min) / (max - min))` using its own min and max over all
voxels; a constant volume gives denominator 0 and hence non-finite
values. -/
def normImage (x y z : ℕ) (f : Fin x → Fin y → Fin z → ℚ) :
    Fin x → Fin y → Fin z → Option ℚ :=
  let lo := npmin (volElems x y z f)
  let hi := npmax (volElems x y z f)
  fun i j k => (npDiv (f i j k - lo) (hi - lo)).map (fun q => 255 * q)

/-- Lines 37–39: `overlay` is a fresh `uint8` zero array with one extra
channel axis of size 3; channel 0 receives the normalized static volume,
channel 1 the normalized moving volume, and channel 2 is never written.
A non-finite float has no specified `uint8` cast, so such entries stay
`none`. -/
def overlayEntry (x y z : ℕ) (sv mv : Fin x → Fin y → Fin z → ℚ)
    (i : Fin x) (j : Fin y) (k : Fin z) (c : Fin 3) : Option ℕ :=
  if c = 0 then (normImage x y z sv i j k).map u8OfFloat
  else if c = 1 then (normImage x y z mv i j k).map u8OfFloat
  else some 0

/-- The flattened element list of the overlay (C order: the channel axis
is innermost). -/
def overlayElems (x y z : ℕ) (sv mv : Fin x → Fin y → Fin z → ℚ) :
    List (Option ℕ) :=
  (List.finRange x).flatMap fun i =>
    (List.finRange y).flatMap fun j =>
      (List.finRange z).flatMap fun k =>
        (List.finRange 3).map fun c => overlayEntry x y z sv mv i j k c

theorem overlayEntry_mem_overlayElems {x y z : ℕ}
    (sv mv : Fin x → Fin y → Fin z → ℚ) (i : Fin x) (j : Fin y) (k : Fin z)
    (c : Fin 3) : overlayEntry x y z sv mv i j k c ∈ overlayElems x y z sv mv := by
  unfold overlayElems
  exact List.mem_flatMap.mpr ⟨i, List.mem_finRange i,
    List.mem_flatMap.mpr ⟨j, List.mem_finRange j,
      List.mem_flatMap.mpr ⟨k, List.mem_finRange k,
        List.mem_map.mpr ⟨c, List.mem_finRange c, rfl⟩⟩⟩⟩

/-- Line 40, `overlay[overlay > 0]`: the boolean mask keeps the elements
strictly greater than 0; a non-finite element (NaN) compares false with
`> 0` and is excluded. -/
def overlayPositives (x y z : ℕ) (sv mv : Fin x → Fin y → Fin z → ℚ) :
    List ℕ :=
  (overlayElems x y z sv mv).filterMap fun o =>
    match o with
    | some n => if 0 < n then some n else none
    | none => none

/-- numpy `.mean()`: the arithmetic mean; an empty selection gives NaN
(`none`). -/
def npMeanQ (l : List ℕ) : Option ℚ :=
  if l.length = 0 then none
  else some ((l.map (fun n => (n : ℚ))).sum / l.length)

/-- numpy `.std()` squared: the population variance; an empty selection
gives NaN (`none`). -/
def npVarQ (l : List ℕ) : Option ℚ :=
  match npMeanQ l with
  | none => none
  | some m => some ((l.map (fun n => ((n : ℚ) - m) ^ 2)).sum / l.length)

/-- numpy `.std()`: the square root of the population variance. -/
noncomputable def npStd (l : List ℕ) : Option ℝ :=
  (npVarQ l).map fun v => Real.sqrt (v : ℝ)

/-- Lines 40–44: the value range `(mean - 0.5 * std, mean + 1.5 * std)`
over the positive overlay elements; the `mosaic` and `anim` branches are
textually identical.  (A tag other than these two would leave
`value_range` unbound in the source, and an empty positive selection
makes both bounds NaN; both failure modes are modelled by `none`.) -/
noncomputable def valueRange (x y z : ℕ) (sv mv : Fin x → Fin y → Fin z → ℚ)
    (type_vis : String) : Option (ℝ × ℝ) :=
  match npMeanQ (overlayPositives x y z sv mv),
        npStd (overlayPositives x y z sv mv) with
  | some m, some s =>
    if type_vis = ("mosaic") then some (((m : ℝ) - 0.5 * s, (m : ℝ) + 1.5 * s))
    else if type_vis = ("anim") then some (((m : ℝ) - 0.5 * s, (m : ℝ) + 1.5 * s))
    else none
  | _, _ => none

/-- Lines 16–46 assembled: `process_image_data` returns the overlay and
the value range. -/
noncomputable def process_image_data (x y z : ℕ)
    (sv mv : Fin x → Fin y → Fin z → ℚ) (type_vis : String) :
    (Fin x → Fin y → Fin z → Fin 3 → Option ℕ) × Option (ℝ × ℝ) :=
  (fun i j k c => overlayEntry x y z sv mv i j k c,
   valueRange x y z sv mv type_vis)

/-- Lines 16–46 contain no raise statement and no guard on
`max == min`; the function always returns normally, so its exception
channel is constantly `ok`. -/
noncomputable def process_image_data_checked (x y z : ℕ)
    (sv mv : Fin x → Fin y → Fin z → ℚ) (type_vis : String) :
    Except String ((Fin x → Fin y → Fin z → Fin 3 → Option ℕ) × Option (ℝ × ℝ)) :=
  Except.ok (process_image_data x y z sv mv type_vis)

/-- C6: for every pair of same-shape input volumes (and any mode tag),
channel 2 of the overlay built by `process_image_data` is zero at every
voxel: it is initialized by `np.zeros` and never assigned. -/
theorem overlay_channel2_zero (x y z : ℕ) (sv mv : Fin x → Fin y → Fin z → ℚ)
    (type_vis : String) (i : Fin x) (j : Fin y) (k : Fin z) :
    (process_image_data x y z sv mv type_vis).1 i j k 2 = some 0 := rfl

/-- A constant 2×1×1 volume (all voxels 7): its max equals its min. -/
def cVol : Fin 2 → Fin 1 → Fin 1 → ℚ := fun _ _ _ => 7

/-- C3 (code evaluated at the failing input): normalizing a constant
volume does not raise — `process_image_data` returns `ok` — and the
rescale divides by the zero denominator `max - min`, so every channel-0
and channel-1 overlay entry is non-finite (`none`, numpy NaN) instead of
an explicit error being raised.  (For a volume with distinct min and max
the rescale does map every voxel into `[0, 255]`; the claim fails only on
its error-handling half.) -/
theorem process_image_data_constant_volume_no_error :
    (process_image_data_checked 2 1 1 cVol cVol ("mosaic")).isOk = true ∧
    (process_image_data 2 1 1 cVol cVol ("mosaic")).1 0 0 0 0 = none ∧
    (process_image_data 2 1 1 cVol cVol ("mosaic")).1 1 0 0 1 = none := by
  refine ⟨rfl, ?_, ?_⟩ <;>
    · simp only [process_image_data]
      with_unfolding_all decide

/-- C10: for volumes with distinct min and max (so that the rescale is
finite and the positive selection is nonempty), `process_image_data`
returns the value range `(mean - 0.5 * std, mean + 1.5 * std)`, where the
mean and the standard deviation are computed only over the nonzero
(positive) elements of the overlay, and the mode tags `mosaic` and `anim`
yield the identical range. -/
theorem value_range_formula_modes (x y z : ℕ)
    (sv mv : Fin x → Fin y → Fin z → ℚ)
    (hs : npmin (volElems x y z sv) < npmax (volElems x y z sv))
    (hm : npmin (volElems x y z mv) < npmax (volElems x y z mv)) :
    (process_image_data x y z sv mv ("mosaic")).2 =
      (process_image_data x y z sv mv ("anim")).2 ∧
    ∃ m v : ℚ, npMeanQ (overlayPositives x y z sv mv) = some m ∧
      npVarQ (overlayPositives x y z sv mv) = some v ∧
      (process_image_data x y z sv mv ("mosaic")).2 =
        some (((m : ℝ) - 0.5 * Real.sqrt (v : ℝ),
               (m : ℝ) + 1.5 * Real.sqrt (v : ℝ))) := by
  have hmodes : valueRange x y z sv mv ("mosaic") = valueRange x y z sv mv ("anim") := by
    unfold valueRange
    cases hM : npMeanQ (overlayPositives x y z sv mv) <;>
      cases hS : npStd (overlayPositives x y z sv mv) <;> simp
  have hne : volElems x y z sv ≠ [] := by
    intro h0
    rw [h0] at hs
    simp [npmin, npmax] at hs
  obtain ⟨i, j, k, hijk⟩ := exists_of_mem_volElems (npmax_mem hne)
  have hden : npmax (volElems x y z sv) - npmin (volElems x y z sv) ≠ 0 :=
    sub_ne_zero.mpr (ne_of_gt hs)
  have hch0 : overlayEntry x y z sv mv i j k 0 = some 255 := by
    have h1 : overlayEntry x y z sv mv i j k 0
        = (normImage x y z sv i j k).map u8OfFloat := by
      simp [overlayEntry]
    rw [h1]
    unfold normImage npDiv
    rw [hijk, if_neg hden, div_self hden]
    norm_num [u8OfFloat]
    decide
  have hpos : (255 : ℕ) ∈ overlayPositives x y z sv mv := by
    unfold overlayPositives
    refine List.mem_filterMap.mpr
      ⟨overlayEntry x y z sv mv i j k 0,
       overlayEntry_mem_overlayElems sv mv i j k 0, ?_⟩
    rw [hch0]
    norm_num
  have hlen : ¬ (overlayPositives x y z sv mv).length = 0 := by
    intro h0
    rw [List.length_eq_zero] at h0
    rw [h0] at hpos
    cases hpos
  have hmean : npMeanQ (overlayPositives x y z sv mv)
      = some (((overlayPositives x y z sv mv).map (fun n => (n : ℚ))).sum
                / (overlayPositives x y z sv mv).length) := by
    unfold npMeanQ
    rw [if_neg hlen]
  have hvar : npVarQ (overlayPositives x y z sv mv)
      = some (((overlayPositives x y z sv mv).map
                (fun n => ((n : ℚ)
                  - ((overlayPositives x y z sv mv).map (fun n => (n : ℚ))).sum
                      / (overlayPositives x y z sv mv).length) ^ 2)).sum
                / (overlayPositives x y z sv mv).length) := by
    unfold npVarQ
    rw [hmean]
  refine ⟨hmodes, _, _, hmean, hvar, ?_⟩
  show valueRange x y z sv mv ("mosaic") = _
  unfold valueRange npStd
  rw [hmean, hvar]
  simp

/-- A nonconstant 2×1×1 volume taking values 0 and 2. -/
def wVol : Fin 2 → Fin 1 → Fin 1 → ℚ := fun i _ _ => if i.val = 0 then 0 else 2

/-- Witness for C10 at a concrete nonconstant volume pair. -/
theorem value_range_formula_modes_witness :
    (npmin (volElems 2 1 1 wVol) < npmax (volElems 2 1 1 wVol)) ∧
    (process_image_data 2 1 1 wVol wVol ("mosaic")).2 =
      (process_image_data 2 1 1 wVol wVol ("anim")).2 :=
  ⟨by with_unfolding_all decide,
   (value_range_formula_modes 2 1 1 wVol wVol
      (by with_unfolding_all decide) (by with_unfolding_all decide)).1⟩

/-!
## Color-depth reduction (source lines 124–147, `adjust_color_range`)

```
img[..., 0] = np.interp(img[..., 0], (img[..., 0].min(), img[..., 0].max()),
                         (0, 15))
img[..., 1] = np.interp(img[..., 1], (img[..., 1].min(), img[..., 1].max()),
                         (0, 15))
img = np.round(img, 0).astype('uint8')
img[..., 0] = np.interp(img[..., 0], (img[..., 0].min(), img[..., 0].max()),
                         (0, 255))
img[..., 1] = np.interp(img[..., 1], (img[..., 1].min(), img[..., 1].max()),
                         (0, 255))
return img
```

`img` is the `uint8` raster returned by the external `snapshot`, so each
in-place store of `np.interp`'s float result truncates to an integer; the
`np.round(...).astype('uint8')` between the two stages is therefore the
identity on the already-integer buffer.  Only channels 0 and 1 are read
or written, so a pixel is modelled by its pair of active channel values.
-/

/-- numpy `np.interp(v, (lo, hi), (a, b))` for a single value: clipped
linear interpolation. -/
def npInterp (v lo hi a b : ℚ) : ℚ :=
  if v ≤ lo then a
  else if hi ≤ v then b
  else a + (v - lo) * (b - a) / (hi - lo)

/-- One pair of in-place channel interpolations (lines 135–138 with
`(a, b) = (0, 15)`, lines 142–145 with `(a, b) = (0, 255)`): each channel
is interpolated against its own `(min, max)` and stored back into the
`uint8` buffer. -/
def interpStage (lo0 hi0 lo1 hi1 : ℕ) (a b : ℚ) (img : List (ℕ × ℕ)) :
    List (ℕ × ℕ) :=
  img.map fun p =>
    (u8OfFloat (npInterp (p.1 : ℚ) (lo0 : ℚ) (hi0 : ℚ) a b),
     u8OfFloat (npInterp (p.2 : ℚ) (lo1 : ℚ) (hi1 : ℚ) a b))

/-- Lines 124–147 assembled: interpolate both channels down to `(0, 15)`
(line 139's round is the identity on the integer buffer), then back up to
`(0, 255)`, each stage using the current per-channel min and max. -/
def adjust_color_range (img : List (ℕ × ℕ)) : List (ℕ × ℕ) :=
  let img1 := interpStage (npmin (img.map Prod.fst)) (npmax (img.map Prod.fst))
                          (npmin (img.map Prod.snd)) (npmax (img.map Prod.snd))
                          0 15 img
  interpStage (npmin (img1.map Prod.fst)) (npmax (img1.map Prod.fst))
              (npmin (img1.map Prod.snd)) (npmax (img1.map Prod.snd))
              0 255 img1

theorem interp_down {v : ℕ} (h : v ≤ 255) :
    u8OfFloat (npInterp (v : ℚ) 0 255 0 15) = v / 17 := by
  unfold npInterp u8OfFloat
  rcases Nat.eq_zero_or_pos v with rfl | hv
  · norm_num
  · have h0 : ¬ ((v : ℚ) ≤ 0) := by
      rw [not_le]
      exact_mod_cast hv
    rw [if_neg h0]
    rcases eq_or_lt_of_le h with rfl | hlt
    · rw [if_pos (by norm_num)]
      norm_num
      decide
    · have h255 : ¬ ((255 : ℚ) ≤ (v : ℚ)) := by
        rw [not_le]
        exact_mod_cast hlt
      rw [if_neg h255]
      have he : (0 : ℚ) + ((v : ℚ) - 0) * (15 - 0) / (255 - 0)
          = ((v * 15 : ℕ) : ℚ) / ((255 : ℕ) : ℚ) := by
        push_cast
        ring
      rw [he, Int.floor_toNat, Nat.floor_div_nat, Nat.floor_natCast]
      omega

theorem interp_up {w : ℕ} (h : w ≤ 15) :
    u8OfFloat (npInterp (w : ℚ) 0 15 0 255) = 17 * w := by
  unfold npInterp u8OfFloat
  rcases Nat.eq_zero_or_pos w with rfl | hw
  · norm_num
  · have h0 : ¬ ((w : ℚ) ≤ 0) := by
      rw [not_le]
      exact_mod_cast hw
    rw [if_neg h0]
    rcases eq_or_lt_of_le h with rfl | hlt
    · rw [if_pos (by norm_num)]
      norm_num
      decide
    · have h15 : ¬ ((15 : ℚ) ≤ (w : ℚ)) := by
        rw [not_le]
        exact_mod_cast hlt
      rw [if_neg h15]
      have he : (0 : ℚ) + ((w : ℚ) - 0) * (255 - 0) / (15 - 0)
          = ((w * 255 : ℕ) : ℚ) / ((15 : ℕ) : ℚ) := by
        push_cast
        ring
      rw [he, Int.floor_toNat, Nat.floor_div_nat, Nat.floor_natCast]
      omega

theorem interpStage_down (img : List (ℕ × ℕ))
    (h0 : ∀ v ∈ img.map Prod.fst, v ≤ 255)
    (h1 : ∀ v ∈ img.map Prod.snd, v ≤ 255) :
    interpStage 0 255 0 255 0 15 img
      = img.map (fun p => (p.1 / 17, p.2 / 17)) := by
  unfold interpStage
  simp only [Nat.cast_zero, Nat.cast_ofNat]
  refine List.map_congr_left ?_
  intro p hp
  rw [interp_down (h0 p.1 (List.mem_map_of_mem Prod.fst hp)),
      interp_down (h1 p.2 (List.mem_map_of_mem Prod.snd hp))]

theorem interpStage_up (img : List (ℕ × ℕ))
    (h0 : ∀ v ∈ img.map Prod.fst, v ≤ 15)
    (h1 : ∀ v ∈ img.map Prod.snd, v ≤ 15) :
    interpStage 0 15 0 15 0 255 img
      = img.map (fun p => (17 * p.1, 17 * p.2)) := by
  unfold interpStage
  simp only [Nat.cast_zero, Nat.cast_ofNat]
  refine List.map_congr_left ?_
  intro p hp
  rw [interp_up (h0 p.1 (List.mem_map_of_mem Prod.fst hp)),
      interp_up (h1 p.2 (List.mem_map_of_mem Prod.snd hp))]

theorem adjust_color_range_quant (img : List (ℕ × ℕ))
    (h00 : 0 ∈ img.map Prod.fst) (h0M : 255 ∈ img.map Prod.fst)
    (h0le : ∀ v ∈ img.map Prod.fst, v ≤ 255)
    (h10 : 0 ∈ img.map Prod.snd) (h1M : 255 ∈ img.map Prod.snd)
    (h1le : ∀ v ∈ img.map Prod.snd, v ≤ 255) :
    adjust_color_range img
      = img.map (fun p => (17 * (p.1 / 17), 17 * (p.2 / 17))) := by
  unfold adjust_color_range
  rw [npmin_nat_eq_zero h00, npmax_nat_eq h0M h0le,
      npmin_nat_eq_zero h10, npmax_nat_eq h1M h1le,
      interpStage_down img h0le h1le]
  dsimp only
  have hq0 : (img.map (fun p => (p.1 / 17, p.2 / 17))).map Prod.fst
      = img.map (fun p => p.1 / 17) := by
    rw [List.map_map]
    rfl
  have hq1 : (img.map (fun p => (p.1 / 17, p.2 / 17))).map Prod.snd
      = img.map (fun p => p.2 / 17) := by
    rw [List.map_map]
    rfl
  rw [hq0, hq1]
  have hmin0 : npmin (img.map (fun p => p.1 / 17)) = 0 := by
    refine npmin_nat_eq_zero ?_
    obtain ⟨p, hp, he⟩ := List.mem_map.mp h00
    exact List.mem_map.mpr ⟨p, hp, by simp [he]⟩
  have hmax0 : npmax (img.map (fun p => p.1 / 17)) = 15 := by
    refine npmax_nat_eq ?_ ?_
    · obtain ⟨p, hp, he⟩ := List.mem_map.mp h0M
      exact List.mem_map.mpr ⟨p, hp, by simp [he]⟩
    · intro b hb
      obtain ⟨p, hp, he⟩ := List.mem_map.mp hb
      have hle := h0le p.1 (List.mem_map_of_mem Prod.fst hp)
      omega
  have hmin1 : npmin (img.map (fun p => p.2 / 17)) = 0 := by
    refine npmin_nat_eq_zero ?_
    obtain ⟨p, hp, he⟩ := List.mem_map.mp h10
    exact List.mem_map.mpr ⟨p, hp, by simp [he]⟩
  have hmax1 : npmax (img.map (fun p => p.2 / 17)) = 15 := by
    refine npmax_nat_eq ?_ ?_
    · obtain ⟨p, hp, he⟩ := List.mem_map.mp h1M
      exact List.mem_map.mpr ⟨p, hp, by simp [he]⟩
    · intro b hb
      obtain ⟨p, hp, he⟩ := List.mem_map.mp hb
      have hle := h1le p.2 (List.mem_map_of_mem Prod.snd hp)
      omega
  rw [hmin0, hmax0, hmin1, hmax1]
  rw [interpStage_up (img.map (fun p => (p.1 / 17, p.2 / 17)))
    (by
      intro b hb
      rw [hq0] at hb
      obtain ⟨p, hp, he⟩ := List.mem_map.mp hb
      have hle := h0le p.1 (List.mem_map_of_mem Prod.fst hp)
      omega)
    (by
      intro b hb
      rw [hq1] at hb
      obtain ⟨p, hp, he⟩ := List.mem_map.mp hb
      have hle := h1le p.2 (List.mem_map_of_mem Prod.snd hp)
      omega)]
  rw [List.map_map]
  rfl

/-- C5: `adjust_color_range` is idempotent on a full-range image: on a
two-channel `uint8` image whose channels each attain 0 and 255, applying
the color-depth reduction twice gives exactly the result of applying it
once (the quantization levels `0, 17, 34, …, 255` are fixed by a second
pass). -/
theorem adjust_color_range_idempotent (img : List (ℕ × ℕ))
    (h00 : 0 ∈ img.map Prod.fst) (h0M : 255 ∈ img.map Prod.fst)
    (h0le : ∀ v ∈ img.map Prod.fst, v ≤ 255)
    (h10 : 0 ∈ img.map Prod.snd) (h1M : 255 ∈ img.map Prod.snd)
    (h1le : ∀ v ∈ img.map Prod.snd, v ≤ 255) :
    adjust_color_range (adjust_color_range img) = adjust_color_range img := by
  have hA := adjust_color_range_quant img h00 h0M h0le h10 h1M h1le
  have hc : ∀ k : ℕ, 17 * k / 17 = k := fun k =>
    Nat.mul_div_cancel_left k (by norm_num)
  have hch0 : (adjust_color_range img).map Prod.fst
      = img.map (fun p => 17 * (p.1 / 17)) := by
    rw [hA, List.map_map]
    rfl
  have hch1 : (adjust_color_range img).map Prod.snd
      = img.map (fun p => 17 * (p.2 / 17)) := by
    rw [hA, List.map_map]
    rfl
  have h00' : (0 : ℕ) ∈ (adjust_color_range img).map Prod.fst := by
    rw [hch0]
    obtain ⟨p, hp, he⟩ := List.mem_map.mp h00
    exact List.mem_map.mpr ⟨p, hp, by simp [he]⟩
  have h0M' : (255 : ℕ) ∈ (adjust_color_range img).map Prod.fst := by
    rw [hch0]
    obtain ⟨p, hp, he⟩ := List.mem_map.mp h0M
    exact List.mem_map.mpr ⟨p, hp, by simp [he]⟩
  have h0le' : ∀ v ∈ (adjust_color_range img).map Prod.fst, v ≤ 255 := by
    rw [hch0]
    intro b hb
    obtain ⟨p, hp, he⟩ := List.mem_map.mp hb
    have hle := h0le p.1 (List.mem_map_of_mem Prod.fst hp)
    omega
  have h10' : (0 : ℕ) ∈ (adjust_color_range img).map Prod.snd := by
    rw [hch1]
    obtain ⟨p, hp, he⟩ := List.mem_map.mp h10
    exact List.mem_map.mpr ⟨p, hp, by simp [he]⟩
  have h1M' : (255 : ℕ) ∈ (adjust_color_range img).map Prod.snd := by
    rw [hch1]
    obtain ⟨p, hp, he⟩ := List.mem_map.mp h1M
    exact List.mem_map.mpr ⟨p, hp, by simp [he]⟩
  have h1le' : ∀ v ∈ (adjust_color_range img).map Prod.snd, v ≤ 255 := by
    rw [hch1]
    intro b hb
    obtain ⟨p, hp, he⟩ := List.mem_map.mp hb
    have hle := h1le p.2 (List.mem_map_of_mem Prod.snd hp)
    omega
  rw [adjust_color_range_quant (adjust_color_range img) h00' h0M' h0le' h10' h1M' h1le']
  rw [hA, List.map_map]
  refine List.map_congr_left ?_
  intro p hp
  simp [Function.comp, hc]

/-- A concrete full-range two-channel image. -/
def wImg : List (ℕ × ℕ) := [(0, 255), (255, 0), (100, 40)]

/-- Witness for C5 on a concrete full-range image. -/
theorem adjust_color_range_idempotent_witness :
    (0 ∈ wImg.map Prod.fst ∧ 255 ∈ wImg.map Prod.fst ∧
     (∀ v ∈ wImg.map Prod.fst, v ≤ 255) ∧
     0 ∈ wImg.map Prod.snd ∧ 255 ∈ wImg.map Prod.snd ∧
     (∀ v ∈ wImg.map Prod.snd, v ≤ 255)) ∧
    adjust_color_range (adjust_color_range wImg) = adjust_color_range wImg :=
  ⟨⟨by decide, by decide, by decide, by decide, by decide, by decide⟩,
   adjust_color_range_idempotent wImg (by decide) (by decide) (by decide)
     (by decide) (by decide) (by decide)⟩

/-!
## Slice Extractor and Animation Composer (source lines 149–253)

```
num_slices = 0
if sli_type == 'saggital':
    num_slices = x
    slice_type = 0
elif sli_type == 'coronal':
    num_slices = y
    slice_type = 1
elif sli_type == 'axial':
    num_slices = z
    slice_type = 2
slices = []
for i in range(num_slices):
    temp_slice = overlay_slices(overlay[..., 0], overlay[..., 1],
                                slice_type=slice_type,
                                slice_index=i, ret_slice=True)
    slices.append(temp_slice)
write_gif(slices, fname, fps=10)
```

Both `animate_overlap` (lines 149–198) and
`animate_overlap_with_renderer` (lines 200–253) run this selection ladder
and extraction loop over an overlay of spatial shape `(x, y, z)`.  When no
branch matches, `num_slices` stays 0, the loop body never runs, and the
unassigned `slice_type` is never read.  `overlay_slices` (from
`dipy.viz.regtools`) and `write_gif` (from `dipy.workflows.core`) are not
part of this module's source and are modelled from the spec.
-/

/-- A 2-D color slice extracted from the overlay: its two spatial
dimensions, its channel count, and the index it was taken at. -/
structure RTSlice where
  d1 : ℕ
  d2 : ℕ
  channels : ℕ
  idx : ℕ
deriving DecidableEq

/-- Modelled from the spec: `overlay_slices` (from `dipy.viz.regtools`,
not under `src/`), called with `ret_slice=True`, returns the 2-D color
slice of the red/green overlay at `slice_index` along axis `slice_type`;
its shape is the two spatial dimensions other than the sliced axis, plus
a channel axis of size 3. -/
def overlay_slices (x y z slice_type slice_index : ℕ) : RTSlice :=
  if slice_type = 0 then ⟨y, z, 3, slice_index⟩
  else if slice_type = 1 then ⟨x, z, 3, slice_index⟩
  else ⟨x, y, 3, slice_index⟩

/-- The selection ladder shared by lines 179–187 and lines 223–231:
`(num_slices, slice_type)` for a plane selector.  In the unmatched case
`num_slices` is 0 and `slice_type` is unassigned in the source; it is
never read there, since the extraction loop body does not run. -/
def animSelect (x y z : ℕ) (sli_type : Option String) : ℕ × ℕ :=
  if sli_type = some ("saggital") then (x, 0)
  else if sli_type = some ("coronal") then (y, 1)
  else if sli_type = some ("axial") then (z, 2)
  else (0, 0)

/-- Lines 170–195 of `animate_overlap`: the ordered slice sequence
produced by the extraction loop, index ascending.  (The value-range
interpolation of lines 175–176 rescales pixel values only; it does not
affect the slice count, shapes, or order.) -/
def animate_overlap (x y z : ℕ) (sli_type : Option String) : List RTSlice :=
  let sel := animSelect x y z sli_type
  (List.range sel.1).map fun i => overlay_slices x y z sel.2 i

/-- Lines 219–240 of `animate_overlap_with_renderer`: the same selection
ladder and extraction loop; each extracted slice is then rendered and
snapshotted (frame rasters are renderer-determined and external), which
preserves the frame count and order, so frames are modelled by their
source slices. -/
def animate_overlap_with_renderer_frames (x y z : ℕ)
    (sli_type : Option String) : List RTSlice :=
  let sel := animSelect x y z sli_type
  (List.range sel.1).map fun i => overlay_slices x y z sel.2 i

/-- An animated-image file: its ordered frames and frame rate. -/
structure GifFile where
  frames : List RTSlice
  fps : ℕ
deriving DecidableEq

/-- Modelled from the spec: `write_gif` (from `dipy.workflows.core`, not
under `src/`) assembles the ordered frame sequence into an animated image
file at the given frame rate; it performs no validation, so an empty
sequence yields an empty animation without raising. -/
def write_gif (frames : List RTSlice) (fps : ℕ) : Except PyErr GifFile :=
  Except.ok ⟨frames, fps⟩

/-- `animate_overlap` end to end: extract, then write the GIF at 10 fps
(line 198). -/
def animate_overlap_run (x y z : ℕ) (sli_type : Option String) :
    Except PyErr GifFile :=
  write_gif (animate_overlap x y z sli_type) 10

/-- `animate_overlap_with_renderer` end to end: extract and render, then
write the GIF at 10 fps (line 253). -/
def animate_overlap_with_renderer_run (x y z : ℕ) (sli_type : Option String) :
    Except PyErr GifFile :=
  write_gif (animate_overlap_with_renderer_frames x y z sli_type) 10

/-- C7: for a recognized plane selector, slice extraction along the
selected axis of length N yields exactly N slices at indices `0 .. N-1`
in ascending order, each shaped by the other two spatial dimensions plus
3 channels (`saggital`: N = x, shape (y, z, 3); `coronal`: N = y, shape
(x, z, 3); `axial`: N = z, shape (x, y, 3)); the renderer variant
extracts the same sequence. -/
theorem slice_extraction_count_shape (x y z : ℕ) (s : String)
    (h : s = ("saggital") ∨ s = ("coronal") ∨ s = ("axial")) :
    animate_overlap x y z (some s) =
      (List.range (if s = ("saggital") then x
                   else if s = ("coronal") then y else z)).map
        (fun k => if s = ("saggital") then RTSlice.mk y z 3 k
                  else if s = ("coronal") then RTSlice.mk x z 3 k
                  else RTSlice.mk x y 3 k) ∧
    animate_overlap_with_renderer_frames x y z (some s) =
      animate_overlap x y z (some s) := by
  rcases h with rfl | rfl | rfl <;>
    exact ⟨by simp [animate_overlap, animSelect, overlay_slices], rfl⟩

/-- Witness for C7: `axial` on a (4, 4, 6) overlay yields 6 slices, each
of shape (4, 4, 3), at indices 0 to 5. -/
theorem slice_extraction_count_shape_witness :
    (("axial" : String) = ("saggital") ∨ ("axial" : String) = ("coronal") ∨
     ("axial" : String) = ("axial")) ∧
    animate_overlap 4 4 6 (some ("axial")) =
      (List.range 6).map (fun k => RTSlice.mk 4 4 3 k) := by
  refine ⟨Or.inr (Or.inr rfl), ?_⟩
  have h := (slice_extraction_count_shape 4 4 6 ("axial")
    (Or.inr (Or.inr rfl))).1
  simpa using h

/-- C9: for any plane selector other than `saggital`, `coronal` or
`axial` (including `None`), both animation paths set `num_slices` to 0,
extract an empty frame sequence, and complete as a silent no-op: the GIF
writer receives zero frames and no error is raised. -/
theorem unknown_selector_noop (x y z : ℕ) (s : Option String)
    (h1 : s ≠ some ("saggital")) (h2 : s ≠ some ("coronal"))
    (h3 : s ≠ some ("axial")) :
    (animSelect x y z s).1 = 0 ∧
    animate_overlap_run x y z s = Except.ok ⟨[], 10⟩ ∧
    animate_overlap_with_renderer_run x y z s = Except.ok ⟨[], 10⟩ := by
  have hsel : animSelect x y z s = (0, 0) := by
    simp [animSelect, h1, h2, h3]
  refine ⟨by rw [hsel], ?_, ?_⟩ <;>
    simp [animate_overlap_run, animate_overlap_with_renderer_run,
      animate_overlap, animate_overlap_with_renderer_frames, write_gif, hsel]

/-- Witness for C9 with the default selector `None` on a (4, 4, 6)
overlay. -/
theorem unknown_selector_noop_witness :
    ((none : Option String) ≠ some ("saggital") ∧
     (none : Option String) ≠ some ("coronal") ∧
     (none : Option String) ≠ some ("axial")) ∧
    ((animSelect 4 4 6 none).1 = 0 ∧
     animate_overlap_run 4 4 6 none = Except.ok ⟨[], 10⟩ ∧
     animate_overlap_with_renderer_run 4 4 6 none = Except.ok ⟨[], 10⟩) :=
  ⟨⟨by decide, by decide, by decide⟩,
   unknown_selector_noop 4 4 6 none (by decide) (by decide) (by decide)⟩
